import Mathlib

/-!
Verification of the TSF (Time-Series File) segment layer of rtimedb.

The definitions below are shallow embeddings of the Rust sources under
`src/tsf/`.  Machine integers are modelled as `Nat` / `Int` with explicit
reduction modulo `2^w` at the points where the Rust code serialises them;
byte buffers and files are `List Nat` whose entries are byte values.
`f32` / `f64` vectors are modelled by the IEEE-754 bit patterns of their
elements (a `Nat` below `2^32` / `2^64`): the Rust code never performs any
floating-point arithmetic on column values, it only moves their bytes, so
the bit-pattern view is exact.  Column names are modelled by their UTF-8
byte lists.  Fallible Rust functions returning `io::Result` / `Result<_,
String>` become `Except String`.

The two evolutions of the segment code in the repository
(`tsf/segments/data.rs` and the split `tsf/segments/{segment_data,
segment_data_header,segment_column_data,types}.rs`) contain line-for-line
identical logic for everything modelled here; the model therefore covers
both.
-/

namespace RTimeDB

/-! ## Little-endian byte helpers

`leBytes w v` is the `w`-byte little-endian image of `v` (the bytes the
`byteorder` crate's `write_uN::<LittleEndian>` emits, after the two's
complement reduction for signed values), and `fromLE` is the inverse used
by `read_uN::<LittleEndian>`. -/

def leBytes : Nat → Nat → List Nat
  | 0, _ => []
  | w + 1, v => v % 256 :: leBytes w (v / 256)

def fromLE : List Nat → Nat
  | [] => 0
  | b :: bs => b + 256 * fromLE bs

/-- Two's complement image of a signed value in `w` bytes, as written by
`write_iN::<LittleEndian>`. -/
def toU (w : Nat) (v : Int) : Nat := (v % ((256 ^ w : Nat) : Int)).toNat

/-- Signed reinterpretation of a `w`-byte unsigned value, as performed by
`read_iN::<LittleEndian>`. -/
def toS (w : Nat) (u : Nat) : Int :=
  if u < 256 ^ w / 2 then (u : Int) else (u : Int) - (256 ^ w : Nat)

theorem leBytes_length (w v : Nat) : (leBytes w v).length = w := by
  induction w generalizing v with
  | zero => rfl
  | succ w ih => simp [leBytes, ih]

theorem fromLE_leBytes (w v : Nat) : fromLE (leBytes w v) = v % 256 ^ w := by
  induction w generalizing v with
  | zero => simp [leBytes, fromLE, Nat.mod_one]
  | succ w ih =>
      simp only [leBytes, fromLE, ih]
      have hB : 0 < 256 ^ w := by positivity
      have hr : v % 256 < 256 := Nat.mod_lt _ (by norm_num)
      have hq : v / 256 % 256 ^ w < 256 ^ w := Nat.mod_lt _ hB
      have hv : v = (v % 256 + 256 * (v / 256 % 256 ^ w)) + 256 * 256 ^ w * (v / 256 / 256 ^ w) := by
        conv_lhs => rw [← Nat.div_add_mod v 256]
        conv_lhs => rw [← Nat.div_add_mod (v / 256) (256 ^ w)]
        ring
      have key : v % (256 * 256 ^ w) = v % 256 + 256 * (v / 256 % 256 ^ w) := by
        conv_lhs => rw [hv]
        rw [Nat.add_mul_mod_self_left]
        exact Nat.mod_eq_of_lt (by nlinarith)
      rw [Nat.pow_succ, Nat.mul_comm (256 ^ w) 256, key]

theorem fromLE_leBytes_of_lt {w v : Nat} (h : v < 256 ^ w) :
    fromLE (leBytes w v) = v := by
  rw [fromLE_leBytes, Nat.mod_eq_of_lt h]

theorem toU_lt (w : Nat) (v : Int) : toU w v < 256 ^ w := by
  have hpos : (0 : Int) < ((256 ^ w : Nat) : Int) := by positivity
  have h1 := Int.emod_lt_of_pos v hpos
  have h2 := Int.emod_nonneg v (show ((256 ^ w : Nat) : Int) ≠ 0 by omega)
  unfold toU
  omega

theorem toS_toU {w : Nat} (hw : 0 < w) {v : Int}
    (h1 : -(((256 ^ w / 2 : Nat) : Int)) ≤ v) (h2 : v < ((256 ^ w / 2 : Nat) : Int)) :
    toS w (toU w v) = v := by
  have hNpos : 0 < 256 ^ w := by positivity
  have htwo : 256 ^ w / 2 * 2 = 256 ^ w := by
    rcases w with _ | w
    · omega
    · rw [Nat.pow_succ]
      omega
  have hpos : (0 : Int) < ((256 ^ w : Nat) : Int) := by positivity
  have hcase : v % ((256 ^ w : Nat) : Int) = v ∨
      v % ((256 ^ w : Nat) : Int) = v + ((256 ^ w : Nat) : Int) := by
    rcases le_or_lt 0 v with hv | hv
    · left
      exact Int.emod_eq_of_lt hv (by push_cast at h2 ⊢; omega)
    · right
      have hm : (v + ((256 ^ w : Nat) : Int) * 1) % ((256 ^ w : Nat) : Int) =
          v % ((256 ^ w : Nat) : Int) :=
        Int.add_mul_emod_self_left v (((256 ^ w : Nat) : Int)) 1
      rw [mul_one] at hm
      rw [← hm]
      exact Int.emod_eq_of_lt (by push_cast at h1 ⊢; omega) (by omega)
  unfold toU toS
  rcases hcase with h | h <;> rw [h]
  · have hv0 : 0 ≤ v := by
      have := Int.emod_nonneg v (show ((256 ^ w : Nat) : Int) ≠ 0 by omega)
      omega
    have hvt : ((v.toNat : Nat) : Int) = v := Int.toNat_of_nonneg hv0
    rw [if_pos (by omega), hvt]
  · have hv0 : 0 ≤ v + ((256 ^ w : Nat) : Int) := by omega
    have hvt : (((v + ((256 ^ w : Nat) : Int)).toNat : Nat) : Int) =
        v + ((256 ^ w : Nat) : Int) := Int.toNat_of_nonneg hv0
    rw [if_neg (by omega), hvt]
    ring

/-! ## Type registry (`tsf/segments/types.rs`) -/

inductive EnumDataType where
  | int8 | int16 | int32 | int64
  | uint8 | uint16 | uint32 | uint64
  | float32 | float64
  | boolean
  | dateTime32 | dateTime64
deriving DecidableEq, Repr

namespace EnumDataType

/-- The `#[repr(u16)]` discriminants (`EnumDataType as u16`). -/
def toU16 : EnumDataType → Nat
  | .int8 => 1
  | .int16 => 2
  | .int32 => 3
  | .int64 => 4
  | .uint8 => 6
  | .uint16 => 7
  | .uint32 => 8
  | .uint64 => 9
  | .float32 => 11
  | .float64 => 12
  | .boolean => 13
  | .dateTime32 => 16
  | .dateTime64 => 17

def from_u16 : Nat → Option EnumDataType
  | 1 => some .int8
  | 2 => some .int16
  | 3 => some .int32
  | 4 => some .int64
  | 6 => some .uint8
  | 7 => some .uint16
  | 8 => some .uint32
  | 9 => some .uint64
  | 11 => some .float32
  | 12 => some .float64
  | 13 => some .boolean
  | 16 => some .dateTime32
  | 17 => some .dateTime64
  | _ => none

end EnumDataType

inductive EnumDataEnc where
  | none | delta | doubleDelta
deriving DecidableEq, Repr

namespace EnumDataEnc

def toU8 : EnumDataEnc → Nat
  | .none => 0
  | .delta => 1
  | .doubleDelta => 2

def from_u8 : Nat → Option EnumDataEnc
  | 0 => some .none
  | 1 => some .delta
  | 2 => some .doubleDelta
  | _ => Option.none

end EnumDataEnc

inductive EnumDataComp where
  | none | zstd
deriving DecidableEq, Repr

namespace EnumDataComp

def toU8 : EnumDataComp → Nat
  | .none => 0
  | .zstd => 1

def from_u8 : Nat → Option EnumDataComp
  | 0 => some .none
  | 1 => some .zstd
  | _ => Option.none

end EnumDataComp

/-- Scalar row values (`EnumDataValue`); float values are carried as their
IEEE-754 bit patterns. -/
inductive EnumDataValue where
  | int8Value (v : Int)
  | int16Value (v : Int)
  | int32Value (v : Int)
  | int64Value (v : Int)
  | uint8Value (v : Nat)
  | uint16Value (v : Nat)
  | uint32Value (v : Nat)
  | uint64Value (v : Nat)
  | float32Value (bits : Nat)
  | float64Value (bits : Nat)
  | booleanValue (v : Bool)
  | dateTime32Value (v : Int)
  | dateTime64Value (v : Int)
deriving DecidableEq, Repr

/-- Typed column vectors (`EnumColumnData`); float vectors are carried as
lists of IEEE-754 bit patterns. -/
inductive EnumColumnData where
  | int8Vec (xs : List Int)
  | int16Vec (xs : List Int)
  | int32Vec (xs : List Int)
  | int64Vec (xs : List Int)
  | uint8Vec (xs : List Nat)
  | uint16Vec (xs : List Nat)
  | uint32Vec (xs : List Nat)
  | uint64Vec (xs : List Nat)
  | float32Vec (xs : List Nat)
  | float64Vec (xs : List Nat)
  | booleanVec (xs : List Bool)
  | dateTime32Vec (xs : List Int)
  | dateTime64Vec (xs : List Int)
deriving DecidableEq, Repr

namespace EnumColumnData

def from_enum_data_type : EnumDataType → EnumColumnData
  | .int8 => .int8Vec []
  | .int16 => .int16Vec []
  | .int32 => .int32Vec []
  | .int64 => .int64Vec []
  | .uint8 => .uint8Vec []
  | .uint16 => .uint16Vec []
  | .uint32 => .uint32Vec []
  | .uint64 => .uint64Vec []
  | .float32 => .float32Vec []
  | .float64 => .float64Vec []
  | .boolean => .booleanVec []
  | .dateTime32 => .dateTime32Vec []
  | .dateTime64 => .dateTime64Vec []

/-- Element type of a column vector (not in the source as a function, but
the variant-to-type correspondence is fixed by `from_enum_data_type`). -/
def dataType : EnumColumnData → EnumDataType
  | .int8Vec _ => .int8
  | .int16Vec _ => .int16
  | .int32Vec _ => .int32
  | .int64Vec _ => .int64
  | .uint8Vec _ => .uint8
  | .uint16Vec _ => .uint16
  | .uint32Vec _ => .uint32
  | .uint64Vec _ => .uint64
  | .float32Vec _ => .float32
  | .float64Vec _ => .float64
  | .booleanVec _ => .boolean
  | .dateTime32Vec _ => .dateTime32
  | .dateTime64Vec _ => .dateTime64

/-- Number of elements held by a column vector. -/
def colLength : EnumColumnData → Nat
  | .int8Vec xs => xs.length
  | .int16Vec xs => xs.length
  | .int32Vec xs => xs.length
  | .int64Vec xs => xs.length
  | .uint8Vec xs => xs.length
  | .uint16Vec xs => xs.length
  | .uint32Vec xs => xs.length
  | .uint64Vec xs => xs.length
  | .float32Vec xs => xs.length
  | .float64Vec xs => xs.length
  | .booleanVec xs => xs.length
  | .dateTime32Vec xs => xs.length
  | .dateTime64Vec xs => xs.length

/-- Machine-representability of the elements: signed values fit the two's
complement range of their width, unsigned values and float bit patterns fit
their width.  These bounds hold of every vector the Rust types can
represent. -/
def validB : EnumColumnData → Bool
  | .int8Vec xs => xs.all fun x =>
      decide (-(((256 ^ 1 / 2 : Nat) : Int)) ≤ x ∧ x < ((256 ^ 1 / 2 : Nat) : Int))
  | .int16Vec xs => xs.all fun x =>
      decide (-(((256 ^ 2 / 2 : Nat) : Int)) ≤ x ∧ x < ((256 ^ 2 / 2 : Nat) : Int))
  | .int32Vec xs => xs.all fun x =>
      decide (-(((256 ^ 4 / 2 : Nat) : Int)) ≤ x ∧ x < ((256 ^ 4 / 2 : Nat) : Int))
  | .int64Vec xs => xs.all fun x =>
      decide (-(((256 ^ 8 / 2 : Nat) : Int)) ≤ x ∧ x < ((256 ^ 8 / 2 : Nat) : Int))
  | .uint8Vec xs => xs.all fun x => decide (x < 256 ^ 1)
  | .uint16Vec xs => xs.all fun x => decide (x < 256 ^ 2)
  | .uint32Vec xs => xs.all fun x => decide (x < 256 ^ 4)
  | .uint64Vec xs => xs.all fun x => decide (x < 256 ^ 8)
  | .float32Vec xs => xs.all fun x => decide (x < 256 ^ 4)
  | .float64Vec xs => xs.all fun x => decide (x < 256 ^ 8)
  | .booleanVec _ => true
  | .dateTime32Vec xs => xs.all fun x =>
      decide (-(((256 ^ 4 / 2 : Nat) : Int)) ≤ x ∧ x < ((256 ^ 4 / 2 : Nat) : Int))
  | .dateTime64Vec xs => xs.all fun x =>
      decide (-(((256 ^ 8 / 2 : Nat) : Int)) ≤ x ∧ x < ((256 ^ 8 / 2 : Nat) : Int))

end EnumColumnData

/-- Width in bytes of one element of each element type (the natural fixed
width the codec uses for the corresponding vector variant). -/
def elemWidth : EnumDataType → Nat
  | .int8 => 1
  | .int16 => 2
  | .int32 => 4
  | .int64 => 8
  | .uint8 => 1
  | .uint16 => 2
  | .uint32 => 4
  | .uint64 => 8
  | .float32 => 4
  | .float64 => 8
  | .boolean => 1
  | .dateTime32 => 4
  | .dateTime64 => 8

/-! ## Column codec (`tsf/segments/segment_column_data.rs`)

`encodeColumn` is the body of `SegmentColumnData::convert_data_into_buffer`
(the buffer it fills), and `decodeColumn` is the body of
`SegmentColumnData::convert_buffer_into_data` (the vector it fills).  The
source's decode loops (`while let Ok(value) = cursor.read_…()`) read whole
elements until a read fails at end of input, and the trailing
`if let Err(e) … if e.kind() != UnexpectedEof` check swallows the
end-of-input error, so the loop is exactly `readLoop` below: it consumes
`w` bytes at a time while at least `w` remain.  The fuel argument
(`bs.length`) only bounds the iteration count; each iteration consumes at
least one byte, so the fuel never runs out before the loop's own guard
stops it. -/

def readLoop (w : Nat) : Nat → List Nat → List Nat
  | 0, _ => []
  | fuel + 1, bs =>
      if 0 < w ∧ w ≤ bs.length then
        fromLE (bs.take w) :: readLoop w fuel (bs.drop w)
      else []

def decChunks (w : Nat) (bs : List Nat) : List Nat :=
  readLoop w bs.length bs

namespace EnumColumnData

def encodeColumn : EnumColumnData → List Nat
  | .int8Vec xs => xs.flatMap fun x => leBytes 1 (toU 1 x)
  | .int16Vec xs => xs.flatMap fun x => leBytes 2 (toU 2 x)
  | .int32Vec xs => xs.flatMap fun x => leBytes 4 (toU 4 x)
  | .int64Vec xs => xs.flatMap fun x => leBytes 8 (toU 8 x)
  | .uint8Vec xs => xs.flatMap fun x => leBytes 1 x
  | .uint16Vec xs => xs.flatMap fun x => leBytes 2 x
  | .uint32Vec xs => xs.flatMap fun x => leBytes 4 x
  | .uint64Vec xs => xs.flatMap fun x => leBytes 8 x
  | .float32Vec xs => xs.flatMap fun x => leBytes 4 x
  | .float64Vec xs => xs.flatMap fun x => leBytes 8 x
  | .booleanVec xs => xs.flatMap fun b => [if b then 255 else 0]
  | .dateTime32Vec xs => xs.flatMap fun x => leBytes 4 (toU 4 x)
  | .dateTime64Vec xs => xs.flatMap fun x => leBytes 8 (toU 8 x)

/-- The decode match of `convert_buffer_into_data`: the variant of `self.data`
selects the element reader; `data_vec.clear()` discards the previous
elements, so only the variant of the first argument matters. -/
def decodeColumn : EnumColumnData → List Nat → EnumColumnData
  | .int8Vec _, bs => .int8Vec ((decChunks 1 bs).map (toS 1))
  | .int16Vec _, bs => .int16Vec ((decChunks 2 bs).map (toS 2))
  | .int32Vec _, bs => .int32Vec ((decChunks 4 bs).map (toS 4))
  | .int64Vec _, bs => .int64Vec ((decChunks 8 bs).map (toS 8))
  | .uint8Vec _, bs => .uint8Vec (decChunks 1 bs)
  | .uint16Vec _, bs => .uint16Vec (decChunks 2 bs)
  | .uint32Vec _, bs => .uint32Vec (decChunks 4 bs)
  | .uint64Vec _, bs => .uint64Vec (decChunks 8 bs)
  | .float32Vec _, bs => .float32Vec (decChunks 4 bs)
  | .float64Vec _, bs => .float64Vec (decChunks 8 bs)
  | .booleanVec _, bs => .booleanVec ((decChunks 1 bs).map fun v => v != 0)
  | .dateTime32Vec _, bs => .dateTime32Vec ((decChunks 4 bs).map (toS 4))
  | .dateTime64Vec _, bs => .dateTime64Vec ((decChunks 8 bs).map (toS 8))

end EnumColumnData

/-! ## Decode-loop lemmas -/

theorem readLoop_congr {w : Nat} (hw : 0 < w) :
    ∀ (f1 f2 : Nat) (bs : List Nat), bs.length ≤ f1 → bs.length ≤ f2 →
      readLoop w f1 bs = readLoop w f2 bs := by
  intro f1
  induction f1 with
  | zero =>
      intro f2 bs h1 h2
      have : bs = [] := List.length_eq_zero.mp (by omega)
      subst this
      cases f2 with
      | zero => rfl
      | succ f2 =>
          simp [readLoop, hw]
          omega
  | succ f1 ih =>
      intro f2 bs h1 h2
      cases f2 with
      | zero =>
          have : bs = [] := List.length_eq_zero.mp (by omega)
          subst this
          simp [readLoop, hw]
          omega
      | succ f2 =>
          simp only [readLoop]
          split
          · rename_i hguard
            have hlen : (bs.drop w).length = bs.length - w := List.length_drop w bs
            rw [ih f2 (bs.drop w) (by omega) (by omega)]
          · rfl

theorem decChunks_cons {w : Nat} (hw : 0 < w) (chunk rest : List Nat)
    (hchunk : chunk.length = w) :
    decChunks w (chunk ++ rest) = fromLE chunk :: decChunks w rest := by
  unfold decChunks
  obtain ⟨wm, hwm⟩ : ∃ wm, w = wm + 1 := ⟨w - 1, by omega⟩
  have hlen : (chunk ++ rest).length = (wm + rest.length) + 1 := by
    simp only [List.length_append, hchunk]
    omega
  rw [hlen]
  simp only [readLoop]
  rw [if_pos (by constructor <;> omega)]
  have htake : (chunk ++ rest).take w = chunk := by
    rw [List.take_append_of_le_length (by omega), List.take_of_length_le (by omega)]
  have hdrop : (chunk ++ rest).drop w = rest := by
    rw [List.drop_append_of_le_length (by omega), List.drop_of_length_le (by omega)]
    simp
  rw [htake, hdrop]
  congr 1
  exact readLoop_congr hw _ _ rest (by omega) (by omega)

theorem decChunks_nil (w : Nat) : decChunks w [] = [] := by
  unfold decChunks
  rfl

theorem decChunks_flatMap {α : Type} {w : Nat} (hw : 0 < w) (f : α → List Nat)
    (xs : List α) (hf : ∀ a ∈ xs, (f a).length = w) :
    decChunks w (xs.flatMap f) = xs.map fun a => fromLE (f a) := by
  induction xs with
  | nil => simp [decChunks_nil]
  | cons a xs ih =>
      rw [List.flatMap_cons, decChunks_cons hw _ _ (hf a (by simp)), List.map_cons]
      rw [ih fun b hb => hf b (by simp [hb])]

theorem readLoop_length {w : Nat} (hw : 0 < w) :
    ∀ (f : Nat) (bs : List Nat), bs.length ≤ f →
      (readLoop w f bs).length = bs.length / w := by
  intro f
  induction f with
  | zero =>
      intro bs hb
      have : bs = [] := List.length_eq_zero.mp (by omega)
      subst this
      simp [readLoop]
  | succ f ih =>
      intro bs hb
      simp only [readLoop]
      split
      · rename_i hguard
        have hlen : (bs.drop w).length = bs.length - w := List.length_drop w bs
        simp only [List.length_cons]
        rw [ih (bs.drop w) (by omega), hlen]
        rw [Nat.div_eq_sub_div hw hguard.2]
      · rename_i hguard
        have hlt : bs.length < w := by omega
        simp [Nat.div_eq_of_lt hlt]

theorem decChunks_length {w : Nat} (hw : 0 < w) (bs : List Nat) :
    (decChunks w bs).length = bs.length / w :=
  readLoop_length hw bs.length bs (by omega)

/-- Generic per-element round trip: encoding every list element into `w`
bytes and decoding the concatenation restores the list. -/
theorem decChunks_roundtrip {α : Type} {w : Nat} (hw : 0 < w)
    (g : α → Nat) (d : Nat → α) (xs : List α)
    (hlt : ∀ a ∈ xs, g a < 256 ^ w) (hrt : ∀ a ∈ xs, d (g a) = a) :
    ((decChunks w (xs.flatMap fun a => leBytes w (g a))).map d) = xs := by
  rw [decChunks_flatMap hw _ xs fun a _ => leBytes_length w (g a)]
  rw [List.map_map]
  have : ∀ a ∈ xs, (d ∘ fun a => fromLE (leBytes w (g a))) a = a := by
    intro a ha
    simp only [Function.comp_apply]
    rw [fromLE_leBytes_of_lt (hlt a ha), hrt a ha]
  calc (xs.map (d ∘ fun a => fromLE (leBytes w (g a)))) = xs.map id := List.map_congr_left this
    _ = xs := List.map_id xs

theorem decChunks_roundtrip_unsigned {w : Nat} (hw : 0 < w) (xs : List Nat)
    (hlt : ∀ a ∈ xs, a < 256 ^ w) :
    decChunks w (xs.flatMap fun a => leBytes w a) = xs := by
  have := decChunks_roundtrip hw id id xs hlt fun a _ => rfl
  simpa using this

theorem decChunks_roundtrip_signed {w : Nat} (hw : 0 < w) (xs : List Int)
    (hb : ∀ a ∈ xs, -(((256 ^ w / 2 : Nat) : Int)) ≤ a ∧ a < ((256 ^ w / 2 : Nat) : Int)) :
    ((decChunks w (xs.flatMap fun a => leBytes w (toU w a))).map (toS w)) = xs :=
  decChunks_roundtrip hw (toU w) (toS w) xs (fun a _ => toU_lt w a)
    fun a ha => toS_toU hw (hb a ha).1 (hb a ha).2

/-! ## `SegmentColumnData` -/

structure SegmentColumnData where
  data : EnumColumnData
  encoding : EnumDataEnc
  compression : EnumDataComp
  buffer : Option (List Nat)
deriving DecidableEq, Repr

namespace SegmentColumnData

def new (data_type : EnumDataType) (encoding : EnumDataEnc) (compression : EnumDataComp) :
    SegmentColumnData :=
  { data := EnumColumnData.from_enum_data_type data_type
    encoding := encoding
    compression := compression
    buffer := none }

/-- `convert_data_into_buffer` fills `self.buffer` and returns the byte
count; writing into a `Vec<u8>` cannot fail, so the `io::Result` is always
`Ok`. -/
def convert_data_into_buffer (c : SegmentColumnData) : SegmentColumnData × Nat :=
  let buf := c.data.encodeColumn
  ({ c with buffer := some buf }, buf.length)

/-- `convert_buffer_into_data` takes the buffer (leaving `None`) and decodes
it into `self.data`; the only error path is a missing buffer, since the
cursor reads swallow `UnexpectedEof`. -/
def convert_buffer_into_data (c : SegmentColumnData) : Except String SegmentColumnData :=
  match c.buffer with
  | Option.none => .error "Buffer is empty"
  | some buf =>
      .ok { c with data := c.data.decodeColumn buf, buffer := Option.none }

/-- `write_buffer_into_file` appends the prepared buffer to the file. -/
def write_buffer_into_file (c : SegmentColumnData) (file : List Nat) :
    Except String (List Nat) :=
  match c.buffer with
  | Option.none => .error "Data not prepared"
  | some buf => .ok (file ++ buf)

/-- `read_file_into_buffer` reads exactly `bytes` bytes from the file into
`self.buffer` (`read_exact` fails when fewer remain); returns the rest of
the file. -/
def read_file_into_buffer (c : SegmentColumnData) (file : List Nat) (bytes : Nat) :
    Except String (SegmentColumnData × List Nat) :=
  if bytes ≤ file.length then
    .ok ({ c with buffer := some (file.take bytes) }, file.drop bytes)
  else .error "failed to fill whole buffer"

end SegmentColumnData

/-! ## Claim C1: column round trip -/

theorem decChunks_one (bs : List Nat) : decChunks 1 bs = bs := by
  induction bs with
  | nil => exact decChunks_nil 1
  | cons b bs ih =>
      have h := decChunks_cons (show 0 < 1 by norm_num) [b] bs rfl
      simp only [List.singleton_append] at h
      rw [h, ih]
      simp [fromLE]

theorem encodeColumn_decodeColumn {v : EnumColumnData} (h : v.validB = true) :
    ∀ keep : EnumColumnData, keep.dataType = v.dataType →
      keep.decodeColumn v.encodeColumn = v := by
  intro keep hkeep
  cases v <;> cases keep <;> simp only [EnumColumnData.dataType, reduceCtorEq] at hkeep <;>
    rename_i xs _ <;>
    simp only [EnumColumnData.encodeColumn, EnumColumnData.decodeColumn,
      EnumColumnData.validB, List.all_eq_true, decide_eq_true_eq] at h ⊢
  · exact congrArg _ (decChunks_roundtrip_signed (by norm_num) xs fun a ha => h a ha)
  · exact congrArg _ (decChunks_roundtrip_signed (by norm_num) xs fun a ha => h a ha)
  · exact congrArg _ (decChunks_roundtrip_signed (by norm_num) xs fun a ha => h a ha)
  · exact congrArg _ (decChunks_roundtrip_signed (by norm_num) xs fun a ha => h a ha)
  · exact congrArg _ (decChunks_roundtrip_unsigned (by norm_num) xs fun a ha => h a ha)
  · exact congrArg _ (decChunks_roundtrip_unsigned (by norm_num) xs fun a ha => h a ha)
  · exact congrArg _ (decChunks_roundtrip_unsigned (by norm_num) xs fun a ha => h a ha)
  · exact congrArg _ (decChunks_roundtrip_unsigned (by norm_num) xs fun a ha => h a ha)
  · exact congrArg _ (decChunks_roundtrip_unsigned (by norm_num) xs fun a ha => h a ha)
  · exact congrArg _ (decChunks_roundtrip_unsigned (by norm_num) xs fun a ha => h a ha)
  · refine congrArg _ ?_
    have h1 : xs.flatMap (fun b => [if b then (255 : Nat) else 0]) =
        xs.map fun b => if b then (255 : Nat) else 0 := by
      induction xs with
      | nil => rfl
      | cons a as ih => simp [ih]
    rw [h1, decChunks_one, List.map_map]
    have h2 : ∀ a ∈ xs, ((fun v => v != 0) ∘ fun b : Bool => if b then (255 : Nat) else 0) a = a := by
      intro a _
      cases a <;> simp
    rw [List.map_congr_left h2]
    simp
  · exact congrArg _ (decChunks_roundtrip_signed (by norm_num) xs fun a ha => h a ha)
  · exact congrArg _ (decChunks_roundtrip_signed (by norm_num) xs fun a ha => h a ha)

theorem dataType_from_enum_data_type (t : EnumDataType) :
    (EnumColumnData.from_enum_data_type t).dataType = t := by
  cases t <;> rfl

/-- C1: for every `TypedVec` `v` (any of the 13 variants, with any encoding
and compression tags, which the raw codec ignores), decoding the buffer
produced by `convert_data_into_buffer` into a fresh vector of `v`'s element
type — exactly what the reader does — restores `v`.  The Boolean variant is
covered: `true` is written as `0xFF` and any non-zero byte reads back as
`true`.  The hypothesis states that every element fits the machine range of
its width, which holds of every vector representable in the Rust types. -/
theorem C1_round_trip_columns (v : EnumColumnData) (e : EnumDataEnc) (c : EnumDataComp)
    (h : v.validB = true) :
    SegmentColumnData.convert_buffer_into_data
        { data := EnumColumnData.from_enum_data_type v.dataType
          encoding := e
          compression := c
          buffer := ((SegmentColumnData.convert_data_into_buffer ⟨v, e, c, Option.none⟩).1).buffer }
      = .ok ⟨v, e, c, Option.none⟩ := by
  simp only [SegmentColumnData.convert_data_into_buffer, SegmentColumnData.convert_buffer_into_data]
  rw [encodeColumn_decodeColumn h _ (dataType_from_enum_data_type v.dataType)]

/-- Witness for C1 at the Int8 vector `[1, 2, -3, -4]`. -/
theorem C1_round_trip_columns_witness :
    (EnumColumnData.int8Vec [1, 2, -3, -4]).validB = true ∧
    SegmentColumnData.convert_buffer_into_data
        { data := EnumColumnData.from_enum_data_type (EnumColumnData.int8Vec [1, 2, -3, -4]).dataType
          encoding := EnumDataEnc.none
          compression := EnumDataComp.none
          buffer := ((SegmentColumnData.convert_data_into_buffer
            ⟨EnumColumnData.int8Vec [1, 2, -3, -4], EnumDataEnc.none, EnumDataComp.none,
              Option.none⟩).1).buffer }
      = .ok ⟨EnumColumnData.int8Vec [1, 2, -3, -4], EnumDataEnc.none, EnumDataComp.none,
          Option.none⟩ :=
  ⟨by decide, C1_round_trip_columns _ _ _ (by decide)⟩

/-- C4 (amended): `convert_buffer_into_data` never fails on a present
buffer and never consults an expected element count.  It decodes exactly
`buffer_length / element_width` whole elements — extra trailing whole
elements become extra vector entries and a trailing partial element is
silently discarded, rather than the trailing-bytes / truncated decode
errors the claim requires. -/
theorem C4_decode_length_policy (t : EnumDataType) (bs : List Nat)
    (e : EnumDataEnc) (c : EnumDataComp) :
    SegmentColumnData.convert_buffer_into_data
        ⟨EnumColumnData.from_enum_data_type t, e, c, some bs⟩
      = .ok ⟨(EnumColumnData.from_enum_data_type t).decodeColumn bs, e, c, Option.none⟩
    ∧ ((EnumColumnData.from_enum_data_type t).decodeColumn bs).colLength
      = bs.length / elemWidth t := by
  constructor
  · rfl
  · cases t <;>
      simp only [EnumColumnData.from_enum_data_type, EnumColumnData.decodeColumn,
        EnumColumnData.colLength, elemWidth, List.length_map] <;>
      rw [decChunks_length (by norm_num)]

/-- C4 (counterexample): a 3-byte buffer for an Int16 column (one whole
element plus one trailing byte, so not `2 × expected_count` for any count)
decodes without error to a single-element vector; the claim requires a
decode error here. -/
theorem C4_decode_length_policy_counterexample :
    SegmentColumnData.convert_buffer_into_data
        ⟨EnumColumnData.int16Vec [], EnumDataEnc.none, EnumDataComp.none, some [1, 0, 2]⟩
      = .ok ⟨EnumColumnData.int16Vec [1], EnumDataEnc.none, EnumDataComp.none, Option.none⟩ := by
  rfl

/-! ## Segment header (`tsf/segments/segment_data_header.rs`)

`u16` / `u32` casts (`as u16`, `as u32`) are modelled by explicit `%`;
overflow of the additions themselves (a panic in debug builds, unreachable
below 2^32 bytes of descriptors) is not modelled.  The checksum constant
`0xBB` is 187. -/

inductive ColumnMeta where
  | none
  | decimal (precision scale : Nat)
  | enumeration (mappings : List (List Nat))
  | dateTime (format : List Nat)
  | text (encoding : List Nat)
deriving DecidableEq, Repr

structure SegmentColumnHeader where
  column_name_length : Nat
  column_name : List Nat
  column_type : EnumDataType
  column_meta_length : Nat
  column_meta : ColumnMeta
  column_enc : EnumDataEnc
  column_comp : EnumDataComp
  column_size : Nat
  column_check : List Nat
deriving DecidableEq, Repr

namespace SegmentColumnHeader

def new (column_name : List Nat) (column_type : EnumDataType)
    (column_enc : EnumDataEnc) (column_comp : EnumDataComp) : SegmentColumnHeader :=
  { column_name_length := column_name.length % 65536
    column_name := column_name
    column_type := column_type
    column_meta_length := 0
    column_meta := ColumnMeta.none
    column_enc := column_enc
    column_comp := column_comp
    column_size := 0
    column_check := List.replicate 8 0 }

/-- Size of the serialised descriptor as computed by `byte_size` (note the
source counts `column_meta_length` even though `prepare_buffer` never
serialises meta bytes; with `new` the meta length is always 0). -/
def byte_size (h : SegmentColumnHeader) : Nat :=
  2 + h.column_name.length % 4294967296 + 2 + 2 + h.column_meta_length + 1 + 1 + 8 + 8

/-- Serialised descriptor bytes (`prepare_buffer`); meta bytes are not
written, matching the source. -/
def prepare_buffer (h : SegmentColumnHeader) : List Nat :=
  leBytes 2 h.column_name_length ++ h.column_name
    ++ leBytes 2 h.column_type.toU16
    ++ leBytes 2 h.column_meta_length
    ++ [h.column_enc.toU8] ++ [h.column_comp.toU8]
    ++ leBytes 8 h.column_size
    ++ h.column_check

/-- Parse one descriptor from a byte buffer, returning it with the rest of
the buffer.  The source validates the name with `String::from_utf8`; that
check is modelled conservatively as all-ASCII (every name appearing in the
theorems below is ASCII, for which the two checks agree).  Meta bytes are
not skipped, matching the source. -/
def read_from_buffer (bs : List Nat) : Except String (SegmentColumnHeader × List Nat) :=
  match bs with
  | b0 :: b1 :: r1 =>
    let column_name_length := b0 + 256 * b1
    if column_name_length ≤ r1.length then
      let column_name := r1.take column_name_length
      let r2 := r1.drop column_name_length
      if column_name.all fun b => b < 128 then
        match r2 with
        | t0 :: t1 :: r3 =>
          match r3 with
          | m0 :: m1 :: r4 =>
            match r4 with
            | e0 :: r5 =>
              match r5 with
              | c0 :: r6 =>
                if 8 ≤ r6.length then
                  let column_size := fromLE (r6.take 8)
                  let r7 := r6.drop 8
                  if 8 ≤ r7.length then
                    let column_check := r7.take 8
                    let rest := r7.drop 8
                    match EnumDataType.from_u16 (t0 + 256 * t1) with
                    | Option.none => .error "Invalid column type"
                    | some ty =>
                      match EnumDataEnc.from_u8 e0 with
                      | Option.none => .error "Invalid encoding type"
                      | some enc =>
                        match EnumDataComp.from_u8 c0 with
                        | Option.none => .error "Invalid compression type"
                        | some comp =>
                          .ok ({ column_name_length := column_name_length
                                 column_name := column_name
                                 column_type := ty
                                 column_meta_length := m0 + 256 * m1
                                 column_meta := ColumnMeta.none
                                 column_enc := enc
                                 column_comp := comp
                                 column_size := column_size
                                 column_check := column_check }, rest)
                  else .error "Failed to read column check"
                else .error "Failed to read column size"
              | _ => .error "Failed to read column compression"
            | _ => .error "Failed to read column encoding"
          | _ => .error "Failed to read column meta length"
        | _ => .error "Failed to read column type"
      else .error "invalid utf-8 sequence"
    else .error "Failed to read column name"
  | _ => .error "Failed to read column name length"

end SegmentColumnHeader

structure SegmentDataHeader where
  tombstone : Bool
  next_offset : Option Nat
  uuid_txid : Option (List Nat)
  date_start : Option Int
  date_end : Option Int
  row_count : Nat
  column_count : Nat
  ts_column : Option Nat
  column_header_size : Nat
  column_headers : List SegmentColumnHeader
  segment_check : Option (List Nat)
deriving DecidableEq, Repr

namespace SegmentDataHeader

def new : SegmentDataHeader :=
  { tombstone := false
    next_offset := Option.none
    uuid_txid := Option.none
    date_start := Option.none
    date_end := Option.none
    row_count := 0
    column_count := 0
    ts_column := Option.none
    column_header_size := 0
    column_headers := []
    segment_check := Option.none }

/-- Append a descriptor, refresh `column_count` and `column_header_size`,
and return the new column's index. -/
def add_column_header (h : SegmentDataHeader) (column_header : SegmentColumnHeader) :
    SegmentDataHeader × Nat :=
  let column_headers := h.column_headers ++ [column_header]
  let column_count := column_headers.length % 65536
  let column_header_size :=
    (column_headers.map SegmentColumnHeader.byte_size).sum % 4294967296
  ({ h with
      column_headers := column_headers
      column_count := column_count
      column_header_size := column_header_size }, column_count - 1)

def set_ts_column (h : SegmentDataHeader) (ts_column_index : Nat) :
    Except String SegmentDataHeader :=
  if h.column_headers.length ≤ ts_column_index then
    .error "Timestamp column index out of bounds."
  else if h.ts_column.isSome then
    .error "Timestamp column already set."
  else .ok { h with ts_column := some ts_column_index }

def set_date_start (h : SegmentDataHeader) (date_start : Int) : SegmentDataHeader :=
  { h with date_start := some date_start }

def set_date_end (h : SegmentDataHeader) (date_end : Int) : SegmentDataHeader :=
  { h with date_end := some date_end }

/-- The fixed-size parts the source sums: 1 (tombstone) + 4 (next_offset) +
16 (uuid_txid) + 8 (date_start) + 8 (date_end) + 4 (row_count) +
2 (column_count) + 2 (ts_column) + 4 (column_header_size) +
8 (segment_check), plus `column_header_size`. -/
def calculate_header_size (h : SegmentDataHeader) : Nat :=
  (1 + 4 + 16 + 8 + 8 + 4 + 2 + 2 + 4 + 8) + h.column_header_size

def calculate_checksum (_ : SegmentDataHeader) : List Nat :=
  List.replicate 8 187

def update_segment_check (h : SegmentDataHeader) : SegmentDataHeader :=
  { h with segment_check := some h.calculate_checksum }

/-- `write_header` assembles the whole header in a local buffer and issues a
single `write_all` at the end; every missing-field early return leaves the
file untouched.  The returned header reflects `update_segment_check`. -/
def write_header (h : SegmentDataHeader) (file : List Nat) :
    List Nat × Except String SegmentDataHeader :=
  match h.next_offset with
  | Option.none => (file, .error "next_offset was not set")
  | some next_offset =>
  match h.uuid_txid with
  | Option.none => (file, .error "uuid_txid was not set")
  | some uuid_txid =>
  match h.date_start with
  | Option.none => (file, .error "date_start was not set")
  | some date_start =>
  match h.date_end with
  | Option.none => (file, .error "date_end was not set")
  | some date_end =>
  match h.ts_column with
  | Option.none => (file, .error "ts_column was not set")
  | some ts_column =>
    let column_headers_buffer := h.column_headers.flatMap SegmentColumnHeader.prepare_buffer
    let column_header_size := column_headers_buffer.length % 4294967296
    let buffer := [cond h.tombstone 1 0]
      ++ leBytes 4 next_offset ++ uuid_txid
      ++ leBytes 8 (toU 8 date_start) ++ leBytes 8 (toU 8 date_end)
      ++ leBytes 4 h.row_count ++ leBytes 2 h.column_count ++ leBytes 2 ts_column
      ++ leBytes 4 column_header_size ++ column_headers_buffer
    match h.update_segment_check.segment_check with
    | Option.none => (file, .error "segment_check was not set")
    | some segment_check => (file ++ (buffer ++ segment_check), .ok h.update_segment_check)

end SegmentDataHeader

/-! ## Segment (`tsf/segments/segment_data.rs`) -/

structure SegmentData where
  data_header : SegmentDataHeader
  data : List SegmentColumnData
deriving DecidableEq, Repr

/-- The row-count probe inside `add_column_data`: only the Int8 / Int16 /
Int32 variants are enumerated; every other variant falls through the
`_ => 0` default (the source marks the gap with
`// @TODO Add cases for other data types...`). -/
def rowCountProbe : EnumColumnData → Nat
  | .int8Vec v => v.length
  | .int16Vec v => v.length
  | .int32Vec v => v.length
  | _ => 0

namespace SegmentData

def new : SegmentData :=
  { data_header := SegmentDataHeader.new, data := [] }

/-- `start_tx` stamps a fresh UUIDv7; the generated bytes are an external
input and appear here as the `txid` parameter. -/
def start_tx (s : SegmentData) (txid : List Nat) : SegmentData :=
  { s with data_header := { s.data_header with uuid_txid := some txid } }

def get_column_count (s : SegmentData) : Nat :=
  s.data_header.column_count

def get_row_count (s : SegmentData) : Nat :=
  s.data_header.row_count

def get_segment_data (s : SegmentData) (index : Nat) : Option SegmentColumnData :=
  s.data[index]?

def add_column_header (s : SegmentData) (column_header : SegmentColumnHeader)
    (ts_column : Bool) : Except String SegmentData :=
  let hi := s.data_header.add_column_header column_header
  if ts_column then
    (hi.1.set_ts_column hi.2).map fun h2 => { s with data_header := h2 }
  else .ok { s with data_header := hi.1 }

def add_column_data (s : SegmentData) (d : SegmentColumnData) : Except String SegmentData :=
  if s.data_header.column_count ≤ s.data.length then
    .error "No corresponding column header for the data."
  else
    let data_row_count := rowCountProbe d.data
    if data_row_count = 0 then .error "Zero rows added"
    else if s.data_header.row_count ≠ 0 then
      if s.data_header.row_count ≠ data_row_count then .error "Inconsistent number of rows."
      else .ok { s with data := s.data ++ [d] }
    else
      .ok { s with
        data_header := { s.data_header with row_count := data_row_count % 4294967296 }
        data := s.data ++ [d] }

def update_header_dates (s : SegmentData) (date_start date_end : Int) : SegmentData :=
  { s with data_header := (s.data_header.set_date_start date_start).set_date_end date_end }

end SegmentData

/-! ## Claims C2, C3, C5, C10 -/

/-- C2 (counterexample): on a fresh header (`column_header_size = 0`)
`calculate_header_size` returns 57, not the claimed 49. -/
theorem C2_header_size_counterexample :
    SegmentDataHeader.new.calculate_header_size ≠
      49 + SegmentDataHeader.new.column_header_size := by
  decide

/-- C2 (amended): `calculate_header_size()` returns
`49 + column_header_size + 8` — it does count the trailing 8-byte
`segment_check` on top of the 49-byte fixed portion — and that total is
exactly the number of bytes `write_header` emits for the header region
whenever the stored `column_header_size` matches the serialised
descriptors. -/
theorem write_header_of_set (h : SegmentDataHeader) (file : List Nat)
    (no : Nat) (uuid : List Nat) (ds de : Int) (ts : Nat)
    (e1 : h.next_offset = some no) (e2 : h.uuid_txid = some uuid)
    (e3 : h.date_start = some ds) (e4 : h.date_end = some de)
    (e5 : h.ts_column = some ts) :
    h.write_header file =
      (file ++ (([cond h.tombstone 1 0] ++ leBytes 4 no ++ uuid
        ++ leBytes 8 (toU 8 ds) ++ leBytes 8 (toU 8 de)
        ++ leBytes 4 h.row_count ++ leBytes 2 h.column_count ++ leBytes 2 ts
        ++ leBytes 4
            ((h.column_headers.flatMap SegmentColumnHeader.prepare_buffer).length % 4294967296)
        ++ h.column_headers.flatMap SegmentColumnHeader.prepare_buffer)
        ++ List.replicate 8 187), .ok h.update_segment_check) := by
  unfold SegmentDataHeader.write_header
  rw [e1, e2, e3, e4, e5]
  rfl

theorem C2_header_size (h : SegmentDataHeader) (file : List Nat)
    (h2 : SegmentDataHeader) (uuid : List Nat)
    (huu : h.uuid_txid = some uuid) (hlen : uuid.length = 16)
    (hok : (h.write_header file).2 = .ok h2) :
    (h.write_header file).1.length =
      file.length +
        (49 + (h.column_headers.flatMap SegmentColumnHeader.prepare_buffer).length + 8)
    ∧ h.calculate_header_size = 49 + h.column_header_size + 8 := by
  refine ⟨?_, by unfold SegmentDataHeader.calculate_header_size; omega⟩
  cases h1 : h.next_offset with
  | none => exact absurd hok (by simp [SegmentDataHeader.write_header, h1])
  | some no =>
  cases h3 : h.date_start with
  | none => exact absurd hok (by simp [SegmentDataHeader.write_header, h1, huu, h3])
  | some ds =>
  cases h4 : h.date_end with
  | none => exact absurd hok (by simp [SegmentDataHeader.write_header, h1, huu, h3, h4])
  | some de =>
  cases h5 : h.ts_column with
  | none => exact absurd hok (by simp [SegmentDataHeader.write_header, h1, huu, h3, h4, h5])
  | some ts =>
  rw [write_header_of_set h file no uuid ds de ts h1 huu h3 h4 h5]
  simp [leBytes_length, hlen, List.length_append, List.length_replicate]
  omega

def C2_exampleHeader : SegmentDataHeader :=
  { SegmentDataHeader.new with
      next_offset := some 0
      uuid_txid := some (List.replicate 16 0)
      date_start := some 0
      date_end := some 0
      ts_column := some 0 }

/-- Witness for C2 at a header with all required fields set. -/
theorem C2_header_size_witness :
    ((C2_exampleHeader.write_header []).2 = .ok C2_exampleHeader.update_segment_check) ∧
    ((C2_exampleHeader.write_header []).1.length =
      ([] : List Nat).length +
        (49 + (C2_exampleHeader.column_headers.flatMap SegmentColumnHeader.prepare_buffer).length + 8)
    ∧ C2_exampleHeader.calculate_header_size = 49 + C2_exampleHeader.column_header_size + 8) :=
  ⟨rfl, C2_header_size C2_exampleHeader [] _ (List.replicate 16 0) rfl (by decide) rfl⟩

def C3_int64_header : SegmentColumnHeader :=
  SegmentColumnHeader.new [116] EnumDataType.int64 EnumDataEnc.none EnumDataComp.none

/-- C3: with an Int64 column declared and free, adding the non-empty vector
`Int64Vec [1, 2, 3]` is rejected as "Zero rows added": the row-count probe
falls through its `_ => 0` default for Int64 (and every variant other than
Int8 / Int16 / Int32), contradicting the claim that `add_data` succeeds and
establishes `row_count = 3`. -/
theorem C3_row_count_probe :
    (SegmentData.new.add_column_header C3_int64_header false).bind
        (fun s => s.add_column_data
          ⟨EnumColumnData.int64Vec [1, 2, 3], EnumDataEnc.none, EnumDataComp.none, Option.none⟩)
      = .error "Zero rows added" := by
  rfl

/-- C5 (counterexample): declaring an Int8 column as the timestamp column
succeeds — `set_ts_column` never inspects the element type, so the claimed
rejection of non-{Int32, Int64, DateTime32, DateTime64} timestamp columns
does not happen. -/
theorem C5_ts_type_not_checked :
    (SegmentData.new.add_column_header
        (SegmentColumnHeader.new [116] EnumDataType.int8 EnumDataEnc.none EnumDataComp.none)
        true).map
        (fun s => s.data_header.ts_column)
      = .ok (some 0) := by
  rfl

/-- C5 (amended): on the write path a successful `set_ts_column` guarantees
a valid index and at-most-once designation (the index is in bounds, no
timestamp column was previously set, and the call records exactly the given
index while leaving the descriptors — hence their element types —
untouched); the element type of the designated column is not restricted. -/
theorem C5_ts_write_path (h : SegmentDataHeader) (i : Nat) (h2 : SegmentDataHeader)
    (hok : h.set_ts_column i = .ok h2) :
    i < h.column_headers.length ∧ h.ts_column = Option.none ∧
      h2.ts_column = some i ∧ h2.column_headers = h.column_headers := by
  by_cases hb : h.column_headers.length ≤ i
  · simp [SegmentDataHeader.set_ts_column, hb] at hok
  · by_cases hs : h.ts_column.isSome
    · simp [SegmentDataHeader.set_ts_column, hb, hs] at hok
    · simp only [SegmentDataHeader.set_ts_column, if_neg hb, hs, Bool.false_eq_true,
        if_false, Except.ok.injEq] at hok
      subst hok
      exact ⟨by omega, Option.not_isSome_iff_eq_none.mp hs, rfl, rfl⟩

def C5_exampleHeader : SegmentDataHeader :=
  (SegmentDataHeader.new.add_column_header
    (SegmentColumnHeader.new [116] EnumDataType.int8 EnumDataEnc.none EnumDataComp.none)).1

/-- Witness for C5 on a one-column header. -/
theorem C5_ts_write_path_witness :
    (C5_exampleHeader.set_ts_column 0 =
      .ok { C5_exampleHeader with ts_column := some 0 }) ∧
    (0 < C5_exampleHeader.column_headers.length ∧ C5_exampleHeader.ts_column = Option.none ∧
      ({ C5_exampleHeader with ts_column := some 0 } : SegmentDataHeader).ts_column = some 0 ∧
      ({ C5_exampleHeader with ts_column := some 0 } : SegmentDataHeader).column_headers =
        C5_exampleHeader.column_headers) :=
  ⟨rfl, C5_ts_write_path _ 0 _ rfl⟩

/-- C10: if any of `next_offset`, `uuid_txid`, `date_start`, `date_end`,
`ts_column` is unset, `write_header` returns a missing-field error and the
file is unchanged — the header is assembled in a local buffer and written
by a single `write_all` at the end, which the error paths never reach. -/
theorem C10_write_header_missing_field (h : SegmentDataHeader) (file : List Nat)
    (hmiss : h.next_offset = Option.none ∨ h.uuid_txid = Option.none ∨
      h.date_start = Option.none ∨ h.date_end = Option.none ∨ h.ts_column = Option.none) :
    (h.write_header file).1 = file ∧ ∃ e, (h.write_header file).2 = .error e := by
  cases h1 : h.next_offset <;> cases h2 : h.uuid_txid <;> cases h3 : h.date_start <;>
    cases h4 : h.date_end <;> cases h5 : h.ts_column <;>
    simp_all [SegmentDataHeader.write_header]

/-- Witness for C10 on a fresh header with every optional field unset. -/
theorem C10_write_header_missing_field_witness :
    (SegmentDataHeader.new.next_offset = Option.none) ∧
    ((SegmentDataHeader.new.write_header [1, 2]).1 = [1, 2] ∧
      ∃ e, (SegmentDataHeader.new.write_header [1, 2]).2 = .error e) :=
  ⟨rfl, C10_write_header_missing_field _ _ (Or.inl rfl)⟩

/-! ## Reading column slabs back (`SegmentData::read_segment_data`) -/

/-- The per-column body of `read_segment_data`: build an empty column of the
descriptor's type, read exactly `column_size` bytes, decode them. -/
def readColumnsGo : List SegmentColumnHeader → List Nat → List SegmentColumnData →
    Except String (List SegmentColumnData × List Nat)
  | [], file, acc => .ok (acc, file)
  | hd :: tl, file, acc =>
    let column_data := SegmentColumnData.new hd.column_type hd.column_enc hd.column_comp
    match column_data.read_file_into_buffer file hd.column_size with
    | .error e => .error e
    | .ok cdRest =>
      match cdRest.1.convert_buffer_into_data with
      | .error e => .error e
      | .ok cd2 => readColumnsGo tl cdRest.2 (acc ++ [cd2])

def SegmentData.read_segment_data (s : SegmentData) (file : List Nat) :
    Except String (SegmentData × List Nat) :=
  (readColumnsGo s.data_header.column_headers file []).map
    fun r => ({ s with data := r.1 }, r.2)

/-! ## Row streaming (`tsf/tsf_reader.rs`, `TSFReader::stream_rows`) -/

structure DataRow where
  values : List EnumDataValue
deriving DecidableEq, Repr

/-- The per-column body of the row loop: Int8 / Int16 / Int32 / Int64
vectors yield the element at `row_index` when in range (the source guards
with `if row_index < v.len()`, pushing nothing otherwise); every other
variant hits the `_ =>` arm that aborts the stream. -/
def columnValueAt (d : EnumColumnData) (row_index : Nat) : Except String (Option EnumDataValue) :=
  match d with
  | .int8Vec v => .ok ((v[row_index]?).map EnumDataValue.int8Value)
  | .int16Vec v => .ok ((v[row_index]?).map EnumDataValue.int16Value)
  | .int32Vec v => .ok ((v[row_index]?).map EnumDataValue.int32Value)
  | .int64Vec v => .ok ((v[row_index]?).map EnumDataValue.int64Value)
  | _ => .error "EnumColumnData not implemented"

/-- The inner column loop of `stream_rows`, over the column indices
`0 .. get_column_count()`: a missing column or an unsupported variant
aborts with the source's error. -/
def buildRowGo (data : List SegmentColumnData) (row_index : Nat) :
    List Nat → List EnumDataValue → Except String (List EnumDataValue)
  | [], acc => .ok acc
  | j :: js, acc =>
    match data[j]? with
    | Option.none => .error "Column data missing"
    | some col =>
      match columnValueAt col.data row_index with
      | .error e => .error e
      | .ok ov => buildRowGo data row_index js (acc ++ ov.toList)

/-- The outer row loop: on the first error the source returns a stream
holding only that error, discarding the rows accumulated so far. -/
def stream_rows_go (s : SegmentData) : Nat → Nat → List (Except String DataRow) →
    List (Except String DataRow)
  | 0, _, acc => acc.reverse
  | remaining + 1, row_index, acc =>
    match buildRowGo s.data row_index (List.range s.get_column_count) [] with
    | .error e => [.error e]
    | .ok vs => stream_rows_go s remaining (row_index + 1) (.ok ⟨vs⟩ :: acc)

def stream_rows (s : SegmentData) : List (Except String DataRow) :=
  stream_rows_go s s.get_row_count 0 []

/-- Follows the spec's words (§4.7): the row at index `i` projects the
element at `i` from each column, for the variants the row path handles. -/
def specProjectElem (d : EnumColumnData) (i : Nat) : Option EnumDataValue :=
  match d with
  | .int8Vec v => (v[i]?).map EnumDataValue.int8Value
  | .int16Vec v => (v[i]?).map EnumDataValue.int16Value
  | .int32Vec v => (v[i]?).map EnumDataValue.int32Value
  | .int64Vec v => (v[i]?).map EnumDataValue.int64Value
  | _ => Option.none

/-- Follows the spec's words (§4.7): one row per index in
`[0, row_count)`, each projecting all columns in column order. -/
def specRows (cols : List EnumColumnData) (n : Nat) : List DataRow :=
  (List.range n).map fun i => ⟨cols.filterMap fun c => specProjectElem c i⟩

def isSignedIntVec : EnumColumnData → Bool
  | .int8Vec _ => true
  | .int16Vec _ => true
  | .int32Vec _ => true
  | .int64Vec _ => true
  | _ => false

theorem columnValueAt_int {d : EnumColumnData} (h : isSignedIntVec d = true) (i : Nat) :
    columnValueAt d i = .ok (specProjectElem d i) := by
  cases d <;> simp_all [isSignedIntVec, columnValueAt, specProjectElem]

theorem buildRowGo_ok (data : List SegmentColumnData) (i : Nat)
    (hint : ∀ c ∈ data, isSignedIntVec c.data = true) :
    ∀ (js : List Nat) (acc : List EnumDataValue), (∀ j ∈ js, j < data.length) →
      buildRowGo data i js acc =
        .ok (acc ++ js.filterMap fun j => (data[j]?).bind fun col => specProjectElem col.data i) := by
  intro js
  induction js with
  | nil => intro acc _; simp [buildRowGo]
  | cons j js ih =>
      intro acc hjs
      have hj : j < data.length := hjs j (by simp)
      have hget : data[j]? = some data[j] := List.getElem?_eq_getElem hj
      have hmem : data[j] ∈ data := List.getElem_mem hj
      simp only [buildRowGo, hget, columnValueAt_int (hint _ hmem) i]
      rw [ih _ fun a ha => hjs a (by simp [ha])]
      rw [List.filterMap_cons]
      simp only [hget, Option.bind_some]
      cases hp : specProjectElem (data[j]).data i <;> simp [hp, Option.toList]

theorem range_filterMap_bind {α β : Type} (l : List α) (f : α → Option β) :
    ((List.range l.length).filterMap fun j => (l[j]?).bind f) = l.filterMap f := by
  induction l with
  | nil => simp
  | cons a l ih =>
      rw [List.length_cons, List.range_succ_eq_map, List.filterMap_cons, List.filterMap_map]
      simp only [List.getElem?_cons_zero, Option.bind_some]
      have hcomp : ((fun j => (a :: l)[j]?.bind f) ∘ Nat.succ) = fun j => l[j]?.bind f := by
        funext j
        simp
      rw [hcomp, ih]
      cases hf : f a <;> simp [List.filterMap_cons, hf]

theorem stream_rows_go_ok (s : SegmentData)
    (hcols : s.data.length = s.get_column_count)
    (hint : ∀ c ∈ s.data, isSignedIntVec c.data = true) :
    ∀ (remaining row_index : Nat) (acc : List (Except String DataRow)),
      stream_rows_go s remaining row_index acc =
        acc.reverse ++ (List.range' row_index remaining).map
          fun i => .ok ⟨s.data.filterMap fun c => specProjectElem c.data i⟩ := by
  intro remaining
  induction remaining with
  | zero => intro row_index acc; simp [stream_rows_go]
  | succ remaining ih =>
      intro row_index acc
      have hrow : buildRowGo s.data row_index (List.range s.get_column_count) [] =
          .ok (s.data.filterMap fun c => specProjectElem c.data row_index) := by
        rw [buildRowGo_ok s.data row_index hint _ []
          (by intro j hj; rw [hcols]; exact List.mem_range.mp hj)]
        rw [← hcols, range_filterMap_bind s.data fun col => specProjectElem col.data row_index]
        simp
      simp only [stream_rows_go, hrow]
      rw [ih]
      rw [List.range'_succ, List.map_cons]
      simp

/-- C6 (amended): the row path supports only the signed-integer variants
Int8 / Int16 / Int32 / Int64.  For a loaded segment all of whose columns
are such vectors, `stream_rows` yields one `Ok` row per index in
`[0, row_count)` whose values project the element at that index from each
column in column order (exactly `specRows`, which follows the spec's
wording); DateTime32 / DateTime64 columns are NOT supported — they abort
the stream (see the counterexample). -/
theorem C6_stream_rows_int_only (s : SegmentData)
    (hcols : s.data.length = s.get_column_count)
    (hint : ∀ c ∈ s.data, isSignedIntVec c.data = true) :
    stream_rows s = (specRows (s.data.map SegmentColumnData.data) s.get_row_count).map .ok := by
  unfold stream_rows specRows
  rw [stream_rows_go_ok s hcols hint s.get_row_count 0 []]
  rw [List.range_eq_range', List.map_map]
  simp only [List.reverse_nil, List.nil_append]
  apply List.map_congr_left
  intro i _
  simp only [Function.comp_apply, List.filterMap_map]
  rfl

def C6_exampleSegment : SegmentData :=
  { data_header := { SegmentDataHeader.new with column_count := 2, row_count := 2 }
    data := [⟨EnumColumnData.int32Vec [10, 20], EnumDataEnc.none, EnumDataComp.none, Option.none⟩,
             ⟨EnumColumnData.int8Vec [1, 2], EnumDataEnc.none, EnumDataComp.none, Option.none⟩] }

/-- Witness for C6 on a two-column integer segment. -/
theorem C6_stream_rows_int_only_witness :
    (C6_exampleSegment.data.length = C6_exampleSegment.get_column_count ∧
      (∀ c ∈ C6_exampleSegment.data, isSignedIntVec c.data = true)) ∧
    stream_rows C6_exampleSegment =
      (specRows (C6_exampleSegment.data.map SegmentColumnData.data)
        C6_exampleSegment.get_row_count).map .ok :=
  ⟨⟨rfl, by decide⟩, C6_stream_rows_int_only _ rfl (by decide)⟩

def C6_dtSegment : SegmentData :=
  { data_header := { SegmentDataHeader.new with column_count := 1, row_count := 1 }
    data := [⟨EnumColumnData.dateTime32Vec [5], EnumDataEnc.none, EnumDataComp.none, Option.none⟩] }

/-- C6 (counterexample): a loaded segment whose single column is
`DateTime32Vec [5]` does not stream its row — the row path hits the
`_ =>` arm and the stream is the single "not implemented" error, although
the claim requires DateTime32 support. -/
theorem C6_datetime_not_supported :
    stream_rows C6_dtSegment = [.error "EnumColumnData not implemented"] := by
  rfl

/-! ## Claim C7: codec tags on the read path -/

def C7_descriptor (e : EnumDataEnc) (c : EnumDataComp) : SegmentColumnHeader :=
  { SegmentColumnHeader.new [97] EnumDataType.int8 e c with column_size := 3 }

def C7_segment (e : EnumDataEnc) (c : EnumDataComp) : SegmentData :=
  { data_header := { SegmentDataHeader.new with
      column_count := 1
      column_headers := [C7_descriptor e c] }
    data := [] }

/-- C7 (amended): the reader rejects only unrecognised numeric codes
("Invalid encoding type" / "Invalid compression type"); every recognised
tag — including the non-`None` ones Delta, DoubleDelta and ZStd — parses
successfully with the tag recorded, and `read_segment_data` then decodes
the column slab as raw bytes regardless of the tags, yielding the same
data for every tag combination.  No `UnsupportedCodec` failure exists. -/
theorem C7_reader_codec_policy (e : EnumDataEnc) (c : EnumDataComp) :
    SegmentColumnHeader.read_from_buffer (C7_descriptor e c).prepare_buffer
      = .ok (C7_descriptor e c, [])
    ∧ ((C7_segment e c).read_segment_data [5, 250, 7]).map
        (fun r => (r.1.data.map SegmentColumnData.data, r.2))
      = .ok ([EnumColumnData.int8Vec [5, -6, 7]], []) := by
  cases e <;> cases c <;> exact ⟨rfl, rfl⟩

/-- Serialised descriptor with encoding byte 1 (Delta) and compression
byte 0: name length 2 bytes, name "a", type Int8 (1), meta length 0,
encoding 1, compression 0, size 3, check 8 zero bytes. -/
def C7_deltaDescriptorBytes : List Nat :=
  [1, 0, 97, 1, 0, 0, 0, 1, 0, 3, 0, 0, 0, 0, 0, 0, 0, 0, 0, 0, 0, 0, 0, 0, 0]

/-- C7 (counterexample): a descriptor carrying the Delta encoding tag is
parsed without any `UnsupportedCodec` error, and the segment read path then
decodes its column bytes exactly as if they were raw: bytes
`[5, 250, 7]` become `Int8Vec [5, -6, 7]`. -/
theorem C7_unsupported_codec_not_raised :
    (SegmentColumnHeader.read_from_buffer C7_deltaDescriptorBytes).map
        (fun r => (r.1.column_enc, r.2))
      = .ok (EnumDataEnc.delta, [])
    ∧ ((C7_segment EnumDataEnc.delta EnumDataComp.none).read_segment_data [5, 250, 7]).map
        (fun r => (r.1.data.map SegmentColumnData.data, r.2))
      = .ok ([EnumColumnData.int8Vec [5, -6, 7]], []) :=
  ⟨rfl, rfl⟩

/-! ## File header (`tsf/header.rs`) and writer (`tsf/tsf_writer.rs`) -/

structure FileHeader where
  magic_number : Nat
  version : Nat
deriving DecidableEq, Repr

namespace FileHeader

def new : FileHeader :=
  { magic_number := 0x54534644, version := 1 }

def write_header (fh : FileHeader) (file : List Nat) : List Nat :=
  file ++ (leBytes 4 fh.magic_number ++ leBytes 2 fh.version)

def verify_header (fh : FileHeader) : Bool :=
  fh.magic_number == 0x54534644 && fh.version == 1

end FileHeader

/-- The per-column loop at the top of `write_to_file`: prepare each
column's buffer and store its size into the descriptor at the same index
(the source indexes `column_headers[index]` and would panic when a data
column has no descriptor; that is the error arm here), summing the sizes. -/
def setColumnSizesGo : List SegmentColumnData → List SegmentColumnHeader →
    Except String (List SegmentColumnData × List SegmentColumnHeader × Nat)
  | [], hs => .ok ([], hs, 0)
  | _ :: _, [] => .error "index out of bounds"
  | cd :: cds, hd :: hs =>
    let r := cd.convert_data_into_buffer
    match setColumnSizesGo cds hs with
    | .error e => .error e
    | .ok rest =>
        .ok (r.1 :: rest.1, { hd with column_size := r.2 } :: rest.2.1, r.2 + rest.2.2)

/-- The buffer-writing loop at the bottom of `write_to_file`. -/
def writeBuffersGo : List SegmentColumnData → List Nat → Except String (List Nat)
  | [], file => .ok file
  | cd :: cds, file =>
    match cd.write_buffer_into_file file with
    | .error e => .error e
    | .ok file2 => writeBuffersGo cds file2

/-- `SegmentData::write_to_file`: prepare buffers and column sizes, refresh
`column_header_size`, compute `next_offset`, write the header, then the
column buffers in declaration order. -/
def SegmentData.write_to_file (s : SegmentData) (file : List Nat) :
    List Nat × Except String SegmentData :=
  match setColumnSizesGo s.data s.data_header.column_headers with
  | .error e => (file, .error e)
  | .ok prepared =>
    let h1 := { s.data_header with
      column_headers := prepared.2.1
      column_header_size :=
        (prepared.2.1.map SegmentColumnHeader.byte_size).sum % 4294967296 }
    let h2 := { h1 with
      next_offset := some (h1.calculate_header_size + prepared.2.2 % 4294967296) }
    match h2.write_header file with
    | (file2, .error e) => (file2, .error e)
    | (file2, .ok h3) =>
      match writeBuffersGo prepared.1 file2 with
      | .error e => (file2, .error e)
      | .ok file3 => (file3, .ok { data_header := h3, data := prepared.1 })

structure TSFWriter where
  file : List Nat
  file_exists : Bool
  file_header : FileHeader
  segment_data : SegmentData
  cleanup : Bool
deriving DecidableEq, Repr

namespace TSFWriter

/-- `TSFWriter::new`: `file_exists` records whether the path existed before
open, and the fresh UUIDv7 bytes are the `txid` parameter (the generator is
an external collaborator).  `file` holds the bytes this writer writes; a
pre-existing file's prior contents are not modelled. -/
def new (file_exists : Bool) (txid : List Nat) : TSFWriter :=
  { file := []
    file_exists := file_exists
    file_header := FileHeader.new
    segment_data := SegmentData.new.start_tx txid
    cleanup := false }

def add_column_header (w : TSFWriter) (column_name : List Nat)
    (column_type : EnumDataType) (encoding : EnumDataEnc) (compression : EnumDataComp)
    (ts_column : Bool) : Except String TSFWriter :=
  (w.segment_data.add_column_header
      (SegmentColumnHeader.new column_name column_type encoding compression) ts_column).map
    fun s => { w with segment_data := s }

/-- `add_column_data` is generic over `T: ColumnDataCreator`; the creator
lifts the native vector into its `TypedVec` variant, which appears here as
the already-lifted `EnumColumnData` argument.  The writer's only own check
is the emptiness test. -/
def add_column_data (w : TSFWriter) (column : EnumColumnData)
    (encoding : EnumDataEnc) (compression : EnumDataComp) : Except String TSFWriter :=
  if column.colLength = 0 then .error "Column data empty"
  else
    (w.segment_data.add_column_data ⟨column, encoding, compression, Option.none⟩).map
      fun s => { w with segment_data := s }

/-- `update_segment_dates` forwards to the segment with no validation of
any kind (it cannot fail). -/
def update_segment_dates (w : TSFWriter) (date_start date_end : Int) : TSFWriter :=
  { w with segment_data := w.segment_data.update_header_dates date_start date_end }

/-- `save` writes the file header then the segment.  Underlying I/O
failures are outside the model; the failure modes modelled are the
library's own error paths. -/
def save (w : TSFWriter) : TSFWriter × Except String Unit :=
  let file1 := w.file_header.write_header w.file
  match w.segment_data.write_to_file file1 with
  | (file2, .error e) => ({ w with file := file2 }, .error e)
  | (file2, .ok s2) => ({ w with file := file2, segment_data := s2 }, .ok ())

def try_save (w : TSFWriter) : TSFWriter × Except String Unit :=
  match ({ w with cleanup := false } : TSFWriter).save with
  | (w2, .error e) => ({ w2 with cleanup := true }, .error e)
  | (w2, .ok _) => (w2, .ok ())

/-- The `Drop` impl: the file is removed iff the cleanup latch is armed and
the file did not pre-exist before open. -/
def drop_removes_file (w : TSFWriter) : Bool :=
  w.cleanup && !w.file_exists

end TSFWriter

def isErr {ε α : Type} : Except ε α → Bool
  | .error _ => true
  | .ok _ => false

/-- C9: after `try_save`, dropping the writer removes the file exactly when
the save failed AND the file did not exist before open: a failed save on a
newly-created file deletes it, a failed save on a pre-existing file leaves
it, and a successful save never deletes (the latch stays cleared).
`file_exists` is fixed at `new` and never changes, so "before open" is
exactly `w.file_exists`. -/
theorem C9_cleanup_latch (w : TSFWriter) (pre : Bool) (txid : List Nat) :
    (w.try_save.1.drop_removes_file = (isErr w.try_save.2 && !w.file_exists))
    ∧ w.try_save.1.file_exists = w.file_exists
    ∧ (TSFWriter.new pre txid).file_exists = pre := by
  have hsave : ∀ v : TSFWriter, v.save.1.cleanup = v.cleanup ∧ v.save.1.file_exists = v.file_exists := by
    intro v
    unfold TSFWriter.save
    rcases hw : v.segment_data.write_to_file (v.file_header.write_header v.file) with ⟨f2, r⟩
    cases r <;> simp [hw]
  refine ⟨?_, ?_, rfl⟩ <;>
  · unfold TSFWriter.try_save
    have h1 := hsave { w with cleanup := false }
    rcases hs : ({ w with cleanup := false } : TSFWriter).save with ⟨w2, r⟩
    rw [hs] at h1
    cases r <;> simp_all [TSFWriter.drop_removes_file, isErr]

/-! ## Claim C8: date range is not validated -/

/-- The build pipeline of the spec's write path on a fresh file: one Int32
timestamp column holding `[1, 2, 3]`, then `update_segment_dates ds de`.
The two error defaults are unreachable (the two build calls succeed). -/
def C8_examplePipeline (ds de : Int) : TSFWriter :=
  match (TSFWriter.new false (List.replicate 16 0)).add_column_header [116]
      EnumDataType.int32 EnumDataEnc.none EnumDataComp.none true with
  | .error _ => TSFWriter.new false (List.replicate 16 0)
  | .ok w1 =>
    match w1.add_column_data (EnumColumnData.int32Vec [1, 2, 3])
        EnumDataEnc.none EnumDataComp.none with
    | .error _ => w1
    | .ok w2 => w2.update_segment_dates ds de

/-- C8 (amended): `update_segment_dates` records exactly the bounds it is
given and neither it nor `try_save` validates them against the timestamp
column: for EVERY pair `(ds, de)` — ordered or not, inside the timestamp
column's range or not — the save succeeds and the persisted header carries
`(ds, de)` unchanged. -/
theorem C8_dates_recorded_unvalidated (ds de : Int) :
    isErr (C8_examplePipeline ds de).try_save.2 = false
    ∧ (C8_examplePipeline ds de).segment_data.data_header.date_start = some ds
    ∧ (C8_examplePipeline ds de).segment_data.data_header.date_end = some de
    ∧ (C8_examplePipeline ds de).segment_data.data.map SegmentColumnData.data
      = [EnumColumnData.int32Vec [1, 2, 3]] :=
  ⟨rfl, rfl, rfl, rfl⟩

/-- C8 (counterexample): with timestamp column `[1, 2, 3]` and the date
range `(100, 5)` — start greater than end and both outside the column's
min/max — `try_save` succeeds, so no writer-layer validation of
`update_segment_dates` against the timestamp column exists. -/
theorem C8_date_range_not_validated :
    isErr (C8_examplePipeline 100 5).try_save.2 = false
    ∧ (C8_examplePipeline 100 5).segment_data.data_header.date_start = some 100
    ∧ (C8_examplePipeline 100 5).segment_data.data_header.date_end = some 5
    ∧ (C8_examplePipeline 100 5).segment_data.data.map SegmentColumnData.data
      = [EnumColumnData.int32Vec [1, 2, 3]]
    ∧ ¬((100 : Int) ≤ 5) ∧ ¬((100 : Int) ≤ 3) ∧ ¬((1 : Int) ≤ 5 ∧ (5 : Int) ≤ 3) := by
  exact ⟨rfl, rfl, rfl, rfl, by norm_num, by norm_num, by norm_num⟩

end RTimeDB
